import Mathlib

/-!
Verification development for the Ghost-Human humanization pipeline.

The repository has two parts that carry logic: a deterministic text-quality
metrics engine (sentence splitting, syllable estimation, Flesch-Kincaid
readability, sentence-length variance, passive-voice detection, filler-phrase
counting, and a weighted overall score) and an orchestrator that sequences an
external rewrite call, an external meaning check, a bounded retry, and the
metrics computation.  Both are embedded below.  JavaScript numbers are
modelled by exact rationals; JS Math.round on nonnegative values is
floor(x + 1/2); Math.sqrt composed with the 1-decimal rounding is computed
exactly through integer square roots.
-/

namespace GhostHuman

/-! ### Character classes and JS string primitives -/

/-- Whitespace characters of the JS regex class for the ASCII range
(space, tab, newline, carriage return, vertical tab, form feed). -/
def isSpaceChar (c : Char) : Bool :=
  c = ' ' || c = '\t' || c = '\n' || c = '\r' || c = '\x0b' || c = '\x0c'

/-- Word characters of the JS regex class (ASCII letters, digits, underscore). -/
def isWordChar (c : Char) : Bool :=
  ('a' ≤ c && c ≤ 'z') || ('A' ≤ c && c ≤ 'Z') || ('0' ≤ c && c ≤ '9') || c = '_'

/-- ASCII lower-case letter test, the class used by the syllable counter
after lower-casing. -/
def isLowerAlpha (c : Char) : Bool := 'a' ≤ c && c ≤ 'z'

/-- JS Math.round for the nonnegative values produced by the metrics:
round half away from zero, which on nonnegative input is floor(x + 1/2). -/
def jsRound (q : ℚ) : ℤ := ⌊q + 1 / 2⌋

/-! ### Sentence segmentation

The source splits text at each maximal whitespace run that is immediately
preceded by one of the characters period, exclamation mark, question mark
(a lookbehind split), then trims each piece and drops empty pieces. -/

/-- Raw split of the char stream: a whitespace char whose predecessor is
period, exclamation or question mark starts a separator; the whole
whitespace run is consumed as the separator.  The Boolean argument records
whether the scan is currently inside a separator run (in which case the
piece under construction is empty and further whitespace is consumed). -/
def splitRawAux : Bool → Option Char → List Char → List Char → List (List Char)
  | _, _, [], cur => [cur.reverse]
  | skip, prev, c :: rest, cur =>
    if skip && isSpaceChar c then splitRawAux true none rest cur
    else if isSpaceChar c && (prev == some '.' || prev == some '!' || prev == some '?') then
      cur.reverse :: splitRawAux true none rest []
    else
      splitRawAux false (some c) rest (c :: cur)

/-- The lookbehind split itself. -/
def splitRaw (t : List Char) : List (List Char) := splitRawAux false none t []

/-- Trim leading and trailing whitespace from a char list (JS trim). -/
def trimList (l : List Char) : List Char :=
  ((l.dropWhile isSpaceChar).reverse.dropWhile isSpaceChar).reverse

/-- splitSentences from the source: lookbehind split, trim, drop empties. -/
def splitSentences (text : String) : List (List Char) :=
  ((splitRaw text.toList).map trimList).filter (fun s => !s.isEmpty)

/-! ### Word counting -/

/-- Accumulator form of splitting on whitespace runs: collects the current
token in reverse and flushes it at each whitespace char or at the end. -/
def wordsOfAux : List Char → List Char → List (List Char)
  | [], cur => if cur.isEmpty then [] else [cur.reverse]
  | c :: rest, cur =>
    if isSpaceChar c then
      if cur.isEmpty then wordsOfAux rest []
      else cur.reverse :: wordsOfAux rest []
    else wordsOfAux rest (c :: cur)

/-- The list of maximal non-whitespace runs, i.e. the result of splitting on
whitespace runs and dropping empty tokens. -/
def wordsOf (l : List Char) : List (List Char) := wordsOfAux l []

/-- countWords on a char list. -/
def countWordsL (l : List Char) : ℕ := (wordsOf l).length

/-- countWords from the source: split on whitespace, drop empty tokens, count. -/
def countWords (text : String) : ℕ := countWordsL text.toList

/-! ### Syllable estimation -/

/-- The vowel class used by the syllable counter (a e i o u y). -/
def isVowelY (c : Char) : Bool :=
  c = 'a' || c = 'e' || c = 'i' || c = 'o' || c = 'u' || c = 'y'

/-- The complement character class of l a e i o u y used in the trailing
silent-suffix pattern. -/
def notLAEIOUY (c : Char) : Bool :=
  !(c = 'l' || c = 'a' || c = 'e' || c = 'i' || c = 'o' || c = 'u' || c = 'y')

/-- The anchored suffix replace of the source: remove a trailing
(non-laeiouy char followed by es), or a trailing ed, or a trailing
(non-laeiouy char followed by e); the leftmost (longest-reach) alternative
is the three-char one, matching the regex scan order. -/
def stripSuffixJS (w : List Char) : List Char :=
  match w.reverse with
  | 's' :: 'e' :: c :: rest =>
    if notLAEIOUY c then rest.reverse else w
  | 'd' :: 'e' :: rest => rest.reverse
  | 'e' :: c :: rest =>
    if notLAEIOUY c then rest.reverse else w
  | _ => w

/-- Remove one leading letter y, as in the source replace of a leading y. -/
def stripLeadY : List Char → List Char
  | 'y' :: rest => rest
  | w => w

/-- The global match count of the vowel-group pattern: a greedy match of one
or two consecutive vowels, scanning left to right and resuming after each
match.  A maximal run of k vowels therefore yields ceil(k / 2) matches. -/
def countVowelGroups : List Char → ℕ
  | [] => 0
  | [c] => if isVowelY c then 1 else 0
  | c :: d :: rest =>
    if isVowelY c then
      if isVowelY d then 1 + countVowelGroups rest
      else 1 + countVowelGroups (d :: rest)
    else countVowelGroups (d :: rest)

/-- countSyllables from the source, on the char list of one token:
lower-case, keep only ASCII letters, words of length at most three count
as one syllable, strip the silent suffix and a leading y, count vowel
groups, with a minimum of one. -/
def countSyllablesL (w : List Char) : ℕ :=
  let w1 := (w.map Char.toLower).filter isLowerAlpha
  if w1.length ≤ 3 then 1
  else
    let w2 := stripLeadY (stripSuffixJS w1)
    let m := countVowelGroups w2
    if m = 0 then 1 else m

/-- countSyllables from the source. -/
def countSyllables (w : String) : ℕ := countSyllablesL w.toList

/-! ### Flesch-Kincaid readability -/

/-- Total syllable count over all whitespace-delimited tokens of a text. -/
def totalSyllablesL (t : List Char) : ℕ :=
  ((wordsOf t).map countSyllablesL).sum

/-- fleschKincaidScore from the source: 0 when there is no sentence or no
word; otherwise the Flesch formula clamped to [0, 100] and rounded to one
decimal place. -/
def fleschKincaidScore (text : String) : ℚ :=
  let sentences := splitSentences text
  if sentences.length = 0 then 0
  else
    let words := countWords text
    if words = 0 then 0
    else
      let totalSyllables := totalSyllablesL text.toList
      let score : ℚ :=
        206.835 - 1.015 * ((words : ℚ) / (sentences.length : ℚ))
          - 84.6 * ((totalSyllables : ℚ) / (words : ℚ))
      (jsRound (max 0 (min 100 score) * 10) : ℚ) / 10

/-! ### Sentence-length variance -/

/-- Fuel-driven integer square root: the floor of the square root of n,
computed by the recurrence sqrt n = adjust (2 * sqrt (n / 4)), which bottoms
out once n reaches 0.  Any fuel with n < 4 ^ fuel gives the exact answer. -/
def isqrtFuel : ℕ → ℕ → ℕ
  | 0, _ => 0
  | fuel + 1, n =>
    if n = 0 then 0
    else
      let r := isqrtFuel fuel (n / 4)
      if (2 * r + 1) ^ 2 ≤ n then 2 * r + 1 else 2 * r

/-- Floor of the square root of a natural number (n itself is always enough
fuel since n < 4 ^ n). -/
def intSqrt (n : ℕ) : ℕ := isqrtFuel n n

/-- Math.round (10 * Math.sqrt v) for a nonnegative rational v, computed
exactly: with v = a / b in lowest terms, the result is the greatest k with
(2k - 1) * b ≤ 2 * sqrt(100 a b), i.e. (intSqrt (400 a b) + b) / (2 b). -/
def sqrtRound10 (v : ℚ) : ℕ :=
  (intSqrt (400 * v.num.toNat * v.den) + v.den) / (2 * v.den)

/-- sentenceLengthVariance from the source: population standard deviation of
per-sentence word counts, rounded to one decimal; 0 for fewer than two
sentences. -/
def sentenceLengthVariance (text : String) : ℚ :=
  let sentences := splitSentences text
  if sentences.length < 2 then 0
  else
    let lengths := sentences.map countWordsL
    let mean : ℚ := (lengths.sum : ℚ) / (lengths.length : ℚ)
    let variance : ℚ :=
      (lengths.map (fun l => ((l : ℚ) - mean) ^ 2)).sum / (lengths.length : ℚ)
    (sqrtRound10 variance : ℚ) / 10

/-! ### Passive-voice detection

The source tests each sentence with one shared global regex: a word boundary,
a be-verb (is are was were be been being), at least one whitespace char, then
either a word of three or more word-chars ending in ed, or one of a fixed
list of irregular past participles, followed by a word boundary.  Because the
regex object carries the global flag, a successful test advances its
lastIndex to the end of the match and the next sentence is searched only from
that offset; a failed test resets lastIndex to zero.  The model below threads
that lastIndex state exactly. -/

/-- The be-verb alternatives, in the alternation order of the source regex. -/
def beVerbs : List (List Char) :=
  (["is", "are", "was", "were", "be", "been", "being"]).map String.toList

/-- The closed list of irregular past participles of the source regex. -/
def irregularPastParticiples : List (List Char) :=
  (["written", "shown", "known", "made", "done", "given", "taken", "seen",
    "found", "built", "told", "sent", "held", "kept", "brought", "thought",
    "said"]).map String.toList

/-- Case-insensitive literal prefix test (p is given lower-case). -/
def matchesCI (p : List Char) (s : List Char) : Bool :=
  ((s.take p.length).map Char.toLower) == p

/-- Does a lower-cased word-char run end in the two letters e d and have
length at least three (the shape of the regex group of word-chars ending
in ed)? -/
def endsWithEd (run : List Char) : Bool :=
  match run.reverse with
  | 'd' :: 'e' :: _ :: _ => true
  | _ => false

/-- Try to match the passive pattern at position p of sentence s.  On
success, return the index one past the end of the match (the value the
regex writes to lastIndex). -/
def matchPassiveAt (s : List Char) (p : ℕ) : Option ℕ :=
  if p ≠ 0 && isWordChar (s.getD (p - 1) ' ') then none
  else
    beVerbs.findSome? fun v =>
      if matchesCI v (s.drop p) then
        let q := p + v.length
        let ws := ((s.drop q).takeWhile isSpaceChar).length
        if ws = 0 then none
        else
          let r := q + ws
          let run := ((s.drop r).takeWhile isWordChar).map Char.toLower
          if run.isEmpty then none
          else if endsWithEd run || irregularPastParticiples.contains run then
            some (r + run.length)
          else none
      else none

/-- Scan positions p, p+1, ... for a match of the passive pattern, for as
many positions as there is fuel. -/
def findPassiveAux (s : List Char) : ℕ → ℕ → Option ℕ
  | 0, _ => none
  | fuel + 1, p =>
    match matchPassiveAt s p with
    | some e => some e
    | none => findPassiveAux s fuel (p + 1)

/-- First match of the passive pattern at a position of s that is at least p
(the global-regex search from lastIndex); none if no such match.  When the
stored lastIndex exceeds the sentence length the search fails immediately,
as the JS exec does. -/
def findPassiveFrom (s : List Char) (p : ℕ) : Option ℕ :=
  if s.length < p then none else findPassiveAux s (s.length + 1 - p) p

/-- passiveVoicePercentage from the source.  The fold carries the shared
regex lastIndex across sentences: a hit advances it to the match end, a miss
resets it to zero. -/
def passiveVoicePercentage (text : String) : ℤ :=
  let sentences := splitSentences text
  if sentences.length = 0 then 0
  else
    let step := fun (acc : ℕ × ℕ) (s : List Char) =>
      match findPassiveFrom s acc.2 with
      | some e => (acc.1 + 1, e)
      | none => (acc.1, 0)
    jsRound ((((sentences.foldl step (0, 0)).1 : ℚ) / (sentences.length : ℚ)) * 100)

/-- The passive percentage as the specification describes it: every sentence
is tested independently against the same fixed pattern, with no state shared
between sentences. -/
def independentPassivePercentage (text : String) : ℤ :=
  let sentences := splitSentences text
  if sentences.length = 0 then 0
  else
    let passiveCount := (sentences.filter (fun s => (findPassiveFrom s 0).isSome)).length
    jsRound (((passiveCount : ℚ) / (sentences.length : ℚ)) * 100)

/-! ### Filler-phrase and transition-word counting -/

/-- The fixed list of filler phrases, lower-case, from the source. -/
def FILLER_PHRASES : List (List Char) :=
  (["it is important to note that",
    "it should be noted that",
    "it is worth mentioning that",
    "in order to",
    "due to the fact that",
    "as a matter of fact",
    "at the end of the day",
    "in today\x27s world",
    "in this day and age",
    "it goes without saying",
    "needless to say",
    "all things considered",
    "when all is said and done",
    "in the realm of",
    "in terms of",
    "with regard to",
    "with respect to",
    "on the other hand",
    "in light of the fact that",
    "for the purpose of",
    "in the event that",
    "at this point in time",
    "the fact of the matter is",
    "it is crucial to",
    "it is essential to",
    "it is imperative to",
    "plays a crucial role",
    "plays a vital role",
    "plays an important role",
    "serves as a testament",
    "serves as a reminder"]).map String.toList

/-- The fixed list of overused transition words, lower-case, from the source. -/
def AI_TRANSITION_WORDS : List (List Char) :=
  (["furthermore", "moreover", "additionally", "consequently", "nevertheless",
    "henceforth", "notwithstanding", "in conclusion", "to summarize",
    "in summary"]).map String.toList

/-- Fuel-driven step of the non-overlapping substring count; the text
shrinks by at least one char per step, so fuel at least the text length
makes the fuel irrelevant. -/
def countOccursAux (p : List Char) : ℕ → List Char → ℕ
  | 0, _ => 0
  | _, [] => 0
  | fuel + 1, c :: rest =>
    if p.isPrefixOf (c :: rest) then
      1 + countOccursAux p fuel (rest.drop (p.length - 1))
    else countOccursAux p fuel rest

/-- Non-overlapping substring occurrence count, advancing past each hit by
the length of the pattern, as the indexOf loop of the source does. -/
def countOccurs (p : List Char) (t : List Char) : ℕ := countOccursAux p t.length t

/-- Fuel-driven step of the whole-word count; the Boolean argument tracks
whether the previous character was a word-char. -/
def countWholeWordAux (w : List Char) : ℕ → Bool → List Char → ℕ
  | 0, _, _ => 0
  | _, _, [] => 0
  | fuel + 1, prevWord, c :: rest =>
    if w ≠ [] ∧ prevWord = false ∧ w.isPrefixOf (c :: rest)
        ∧ isWordChar (((c :: rest).drop w.length).headD ' ') = false then
      1 + countWholeWordAux w fuel true ((c :: rest).drop w.length)
    else
      countWholeWordAux w fuel (isWordChar c) rest

/-- Whole-word occurrence count of w in t (a word-boundary-delimited global
regex match): w must occur with no word-char immediately before or after,
matches are found left to right and do not overlap. -/
def countWholeWord (w : List Char) (t : List Char) : ℕ :=
  countWholeWordAux w t.length false t

/-- countFillerPhrases from the source: lower-case the text, sum the
non-overlapping substring hits of every filler phrase, then add the
whole-word hits of every transition word. -/
def countFillerPhrases (text : String) : ℕ :=
  let lower := text.toList.map Char.toLower
  (FILLER_PHRASES.map (fun p => countOccurs p lower)).sum
    + (AI_TRANSITION_WORDS.map (fun w => countWholeWord w lower)).sum

/-! ### Composite metrics -/

/-- The QualityMetrics record returned by computeMetrics. -/
structure QualityMetrics where
  readabilityBefore : ℚ
  readabilityAfter : ℚ
  readabilityImproved : Bool
  lengthRatio : ℚ
  sentenceVarianceBefore : ℚ
  sentenceVarianceAfter : ℚ
  passiveVoiceBefore : ℤ
  passiveVoiceAfter : ℤ
  fillerCountBefore : ℕ
  fillerCountAfter : ℕ
  overallScore : ℤ
deriving DecidableEq

/-- The final clamp of the overall score to [0, 100]. -/
def clampScore (s : ℤ) : ℤ := max 0 (min 100 s)

/-- computeMetrics from the source: every per-text metric for the original
and the rewritten text, the rounded length ratio, and the weighted overall
score starting at 50 and clamped at the end. -/
def computeMetrics (original rewritten : String) : QualityMetrics :=
  let readabilityBefore := fleschKincaidScore original
  let readabilityAfter := fleschKincaidScore rewritten
  let lengthRatio : ℚ :=
    (jsRound (((countWords rewritten : ℚ) / ((max (countWords original) 1 : ℕ) : ℚ)) * 100) : ℚ) / 100
  let sentenceVarianceBefore := sentenceLengthVariance original
  let sentenceVarianceAfter := sentenceLengthVariance rewritten
  let passiveVoiceBefore := passiveVoicePercentage original
  let passiveVoiceAfter := passiveVoicePercentage rewritten
  let fillerCountBefore := countFillerPhrases original
  let fillerCountAfter := countFillerPhrases rewritten
  let score0 : ℤ := 50
  let score1 :=
    if readabilityAfter > readabilityBefore then score0 + 10
    else if readabilityAfter < readabilityBefore - 10 then score0 - 5
    else score0
  let score2 :=
    if sentenceVarianceAfter > sentenceVarianceBefore then score1 + 10 else score1
  let score3 :=
    if passiveVoiceAfter < passiveVoiceBefore then score2 + 10
    else if passiveVoiceAfter > passiveVoiceBefore then score2 - 5
    else score2
  let score4 :=
    if fillerCountAfter < fillerCountBefore then score3 + 10 else score3
  let score5 :=
    if 0.7 ≤ lengthRatio ∧ lengthRatio ≤ 1.1 then score4 + 10
    else if lengthRatio < 0.5 ∨ lengthRatio > 1.5 then score4 - 10
    else score4
  { readabilityBefore := readabilityBefore
    readabilityAfter := readabilityAfter
    readabilityImproved := decide (readabilityAfter ≥ readabilityBefore)
    lengthRatio := lengthRatio
    sentenceVarianceBefore := sentenceVarianceBefore
    sentenceVarianceAfter := sentenceVarianceAfter
    passiveVoiceBefore := passiveVoiceBefore
    passiveVoiceAfter := passiveVoiceAfter
    fillerCountBefore := fillerCountBefore
    fillerCountAfter := fillerCountAfter
    overallScore := clampScore score5 }

/-! ### The humanization orchestrator

The source has two versions of the same module, one plain and one with
console logging and slightly different outbound request parameters
(temperature plus max_tokens versus max_completion_tokens).  Both sequence:
rewrite call, meaning-check call, an optional single retry (second rewrite
plus second check) when the verdict reports unpreserved meaning of major
severity, then the metrics computation.  The external generation service is
modelled by an oracle giving the outcome of each successive outbound call,
and JSON.parse composed with the code-fence-stripping replace is modelled by
an abstract parse function returning the three fields the code reads, or
none when parsing throws. -/

/-- Tone from the prompt-template module. -/
inductive Tone
  | professional
  | friendly
  | confident
deriving DecidableEq

/-- Strength from the prompt-template module. -/
inductive Strength
  | light
  | medium
  | strong
deriving DecidableEq

/-- HumanizeOptions from the source. -/
structure HumanizeOptions where
  tone : Tone
  strength : Strength
  preserveKeyPoints : Bool
deriving DecidableEq

/-- The meaning-check verdict record (the meaningCheck field type). -/
structure MeaningVerdict where
  preserved : Bool
  issues : List String
  severity : String
deriving DecidableEq

/-- HumanizeResult from the source. -/
structure HumanizeResult where
  original : String
  rewritten : String
  metrics : QualityMetrics
  meaningCheck : MeaningVerdict
  retried : Bool
deriving DecidableEq

/-- The three fields the code reads from the parsed evaluator JSON; each is
optional, mirroring the JS nullish-coalescing defaults. -/
structure ParsedFields where
  meaningPreserved : Option Bool
  issuesFound : Option (List String)
  severity : Option String
deriving DecidableEq

/-- One outcome of an outbound call to the external generation service: the
call either throws, or returns a first choice whose message content may be
absent. -/
inductive GenReply
  | failure
  | reply (content : Option String)
deriving DecidableEq

/-- The environment of one humanize request: the outcome of its n-th
outbound service call. -/
def Oracle : Type := ℕ → GenReply

/-- The default verdict used by the fail-open catch branch of checkMeaning. -/
def defaultVerdict : MeaningVerdict :=
  { preserved := true, issues := [], severity := "none" }

/-- The raw text handed to the JSON parse: the trimmed message content, or
the two-char object-braces string when the content is absent. -/
def rawOf (content : Option String) : String :=
  (content.map String.trim).getD "\x7b\x7d"

/-- The config object built inside callRewrite and passed to the prompt
builder: the caller options with preserveKeyPoints forced on when stricter
is set. -/
def rewriteConfig (options : HumanizeOptions) (stricter : Bool) : HumanizeOptions :=
  { options with preserveKeyPoints := options.preserveKeyPoints || stricter }

/-- The temperature of the variant-A rewrite request. -/
def rewriteTemperature (options : HumanizeOptions) : ℚ :=
  if options.tone = Tone.friendly then 0.8 else 0.6

/-- The record of one outbound call of variant A (the plain module): the
config passed to the prompt builder, the stricter flag and the request
parameters. -/
inductive CallA
  | rewrite (config : HumanizeOptions) (stricter : Bool) (temperature : ℚ) (maxTokens : ℕ)
  | meaning (maxTokens : ℕ)
deriving DecidableEq

/-- The call-sequencing state of variant A: how many outbound calls have
been made, and the chronological record of them. -/
structure StateA where
  idx : ℕ
  calls : List CallA
deriving DecidableEq

/-- callRewrite of the plain module.  The text argument only feeds the
outbound prompt, which the oracle abstracts, so it is unused here.  A
service failure propagates as an error; otherwise the trimmed content (or
the empty string when absent) is returned. -/
def callRewrite (_text : String) (options : HumanizeOptions) (stricter : Bool)
    (o : Oracle) (st : StateA) : Except Unit (String × StateA) :=
  let config := rewriteConfig options stricter
  let st' : StateA :=
    ⟨st.idx + 1,
     st.calls ++ [CallA.rewrite config stricter (rewriteTemperature options) 4096]⟩
  match o st.idx with
  | GenReply.failure => Except.error ()
  | GenReply.reply content => Except.ok ((content.map String.trim).getD "", st')

/-- checkMeaning of the plain module.  Everything inside the try block is a
single service call followed by the fence-strip-and-parse step; any failure
(the call throwing, or the parse throwing) lands in the catch branch and
yields the default verdict.  On a successful parse each field falls back to
its nullish-coalescing default. -/
def checkMeaning (_original _rewritten : String) (o : Oracle)
    (parse : String → Option ParsedFields) (st : StateA) : MeaningVerdict × StateA :=
  let st' : StateA := ⟨st.idx + 1, st.calls ++ [CallA.meaning 512]⟩
  match o st.idx with
  | GenReply.failure => (defaultVerdict, st')
  | GenReply.reply content =>
    match parse (rawOf content) with
    | none => (defaultVerdict, st')
    | some parsed =>
      ({ preserved := parsed.meaningPreserved.getD true,
         issues := parsed.issuesFound.getD [],
         severity := parsed.severity.getD "none" }, st')

/-- humanize of the plain module: rewrite, check, retry once with stricter
mode when the verdict is unpreserved with major severity, then metrics. -/
def humanize (text : String) (options : HumanizeOptions) (o : Oracle)
    (parse : String → Option ParsedFields) : Except Unit (HumanizeResult × StateA) :=
  match callRewrite text options false o ⟨0, []⟩ with
  | Except.error e => Except.error e
  | Except.ok (rewritten1, st1) =>
    let chk1 := checkMeaning text rewritten1 o parse st1
    if !chk1.1.preserved && chk1.1.severity == "major" then
      match callRewrite text options true o chk1.2 with
      | Except.error e => Except.error e
      | Except.ok (rewritten2, st3) =>
        let chk2 := checkMeaning text rewritten2 o parse st3
        Except.ok ({ original := text, rewritten := rewritten2,
                     metrics := computeMetrics text rewritten2,
                     meaningCheck := chk2.1, retried := true }, chk2.2)
    else
      Except.ok ({ original := text, rewritten := rewritten1,
                   metrics := computeMetrics text rewritten1,
                   meaningCheck := chk1.1, retried := false }, chk1.2)

/-- The record of one outbound call of variant B (the logging module), whose
requests carry max_completion_tokens instead of temperature and max_tokens. -/
inductive CallB
  | rewrite (config : HumanizeOptions) (stricter : Bool) (maxCompletionTokens : ℕ)
  | meaning (maxCompletionTokens : ℕ)
deriving DecidableEq

/-- The call-sequencing state of variant B, including the console log. -/
structure StateB where
  idx : ℕ
  calls : List CallB
  console : List String
deriving DecidableEq

/-- callRewrite of the logging module: same logic as variant A plus console
entries around the call (the dynamic payloads of the log lines are not
modelled, only the messages). -/
def callRewriteLogged (_text : String) (options : HumanizeOptions) (stricter : Bool)
    (o : Oracle) (st : StateB) : Except Unit (String × StateB) :=
  let config := rewriteConfig options stricter
  match o st.idx with
  | GenReply.failure => Except.error ()
  | GenReply.reply content =>
    Except.ok ((content.map String.trim).getD "",
      ⟨st.idx + 1,
       st.calls ++ [CallB.rewrite config stricter 4096],
       st.console ++ ["[GhostHuman] Calling OpenAI for rewrite", "[GhostHuman] Rewrite done"]⟩)

/-- checkMeaning of the logging module. -/
def checkMeaningLogged (_original _rewritten : String) (o : Oracle)
    (parse : String → Option ParsedFields) (st : StateB) : MeaningVerdict × StateB :=
  match o st.idx with
  | GenReply.failure =>
    (defaultVerdict,
     ⟨st.idx + 1, st.calls ++ [CallB.meaning 512],
      st.console ++ ["[GhostHuman] Meaning check: calling OpenAI",
        "[GhostHuman] Meaning check failed, assuming preserved"]⟩)
  | GenReply.reply content =>
    match parse (rawOf content) with
    | none =>
      (defaultVerdict,
       ⟨st.idx + 1, st.calls ++ [CallB.meaning 512],
        st.console ++ ["[GhostHuman] Meaning check: calling OpenAI",
          "[GhostHuman] Meaning check failed, assuming preserved"]⟩)
    | some parsed =>
      ({ preserved := parsed.meaningPreserved.getD true,
         issues := parsed.issuesFound.getD [],
         severity := parsed.severity.getD "none" },
       ⟨st.idx + 1, st.calls ++ [CallB.meaning 512],
        st.console ++ ["[GhostHuman] Meaning check: calling OpenAI",
          "[GhostHuman] Meaning check result"]⟩)

/-- humanize of the logging module. -/
def humanizeLogged (text : String) (options : HumanizeOptions) (o : Oracle)
    (parse : String → Option ParsedFields) : Except Unit (HumanizeResult × StateB) :=
  match callRewriteLogged text options false o ⟨0, [], []⟩ with
  | Except.error e => Except.error e
  | Except.ok (rewritten1, st1) =>
    let chk1 := checkMeaningLogged text rewritten1 o parse st1
    if !chk1.1.preserved && chk1.1.severity == "major" then
      match callRewriteLogged text options true o
          ⟨chk1.2.idx, chk1.2.calls,
           chk1.2.console ++ ["[GhostHuman] Major meaning drift, retrying with stricter constraints"]⟩ with
      | Except.error e => Except.error e
      | Except.ok (rewritten2, st3) =>
        let chk2 := checkMeaningLogged text rewritten2 o parse st3
        Except.ok ({ original := text, rewritten := rewritten2,
                     metrics := computeMetrics text rewritten2,
                     meaningCheck := chk2.1, retried := true },
          ⟨chk2.2.idx, chk2.2.calls,
           chk2.2.console ++ ["[GhostHuman] Computing quality metrics"]⟩)
    else
      Except.ok ({ original := text, rewritten := rewritten1,
                   metrics := computeMetrics text rewritten1,
                   meaningCheck := chk1.1, retried := false },
        ⟨chk1.2.idx, chk1.2.calls,
         chk1.2.console ++ ["[GhostHuman] Computing quality metrics"]⟩)

/-- Number of rewrite calls in a variant-A call record. -/
def rewriteCallCount (calls : List CallA) : ℕ :=
  (calls.filter fun c => match c with
    | CallA.rewrite _ _ _ _ => true
    | CallA.meaning _ => false).length

/-- Number of meaning-check calls in a variant-A call record. -/
def meaningCallCount (calls : List CallA) : ℕ :=
  (calls.filter fun c => match c with
    | CallA.rewrite _ _ _ _ => false
    | CallA.meaning _ => true).length

/-- Forget the call-sequencing state of a variant-A run, keeping the value. -/
def resultOfA : Except Unit (HumanizeResult × StateA) → Except Unit HumanizeResult
  | Except.error e => Except.error e
  | Except.ok (r, _) => Except.ok r

/-- Forget the call-sequencing state of a variant-B run, keeping the value. -/
def resultOfB : Except Unit (HumanizeResult × StateB) → Except Unit HumanizeResult
  | Except.error e => Except.error e
  | Except.ok (r, _) => Except.ok r

/-! ### Sanity of the integer square root -/

/-- With enough fuel, isqrtFuel computes the floor of the square root. -/
theorem isqrtFuel_isSqrt :
    ∀ fuel n, n < 4 ^ fuel →
      (isqrtFuel fuel n) ^ 2 ≤ n ∧ n < (isqrtFuel fuel n + 1) ^ 2 := by
  intro fuel
  induction fuel with
  | zero =>
    intro n h
    simp only [pow_zero, Nat.lt_one_iff] at h
    subst h
    simp [isqrtFuel]
  | succ f ih =>
    intro n h
    by_cases h0 : n = 0
    · subst h0
      simp [isqrtFuel]
    · have hs : n / 4 < 4 ^ f := by
        have h4 : (4 : ℕ) ^ (f + 1) = 4 * 4 ^ f := by ring
        rw [h4] at h
        omega
      have hrec := ih (n / 4) hs
      simp only [isqrtFuel, h0, if_false]
      set r := isqrtFuel f (n / 4) with hr
      obtain ⟨ha, hb⟩ := hrec
      have e4 : (r + 1) ^ 2 = r ^ 2 + 2 * r + 1 := by ring
      rw [e4] at hb
      by_cases hc : (2 * r + 1) ^ 2 ≤ n
      · rw [if_pos hc]
        have e1 : (2 * r + 1) ^ 2 = 4 * r ^ 2 + 4 * r + 1 := by ring
        have e2 : (2 * r + 1 + 1) ^ 2 = 4 * r ^ 2 + 8 * r + 4 := by ring
        rw [e1] at hc
        rw [e1, e2]
        generalize r ^ 2 = q at hb hc ⊢
        omega
      · rw [if_neg hc]
        have e1 : (2 * r + 1) ^ 2 = 4 * r ^ 2 + 4 * r + 1 := by ring
        have e3 : (2 * r) ^ 2 = 4 * r ^ 2 := by ring
        rw [e1] at hc
        push_neg at hc
        rw [e3, e1]
        generalize r ^ 2 = q at ha hb hc ⊢
        omega

/-- intSqrt agrees with the library square root. -/
theorem intSqrt_eq_sqrt (n : ℕ) : intSqrt n = Nat.sqrt n := by
  have hfuel : n < 4 ^ n := Nat.lt_pow_self (by norm_num) n
  have h := isqrtFuel_isSqrt n n hfuel
  have h1 : intSqrt n ≤ Nat.sqrt n := by
    apply Nat.le_sqrt.mpr
    have := h.1
    simpa [intSqrt, pow_two] using this
  have h2 : Nat.sqrt n < intSqrt n + 1 := by
    apply Nat.sqrt_lt.mpr
    have := h.2
    simpa [intSqrt, pow_two] using this
  omega

/-! ### Claim theorems: the metrics engine -/

/-- C6: for every (original, rewritten) text pair, the overallScore field of
the QualityMetrics returned by computeMetrics lies in the interval [0, 100]. -/
theorem computeMetrics_overallScore_in_range (original rewritten : String) :
    0 ≤ (computeMetrics original rewritten).overallScore ∧
      (computeMetrics original rewritten).overallScore ≤ 100 := by
  refine ⟨le_max_left 0 _, max_le (by norm_num) (min_le_left 100 _)⟩

/-- C1 (amended): for every (original, rewritten) text pair, the
overallScore computed by computeMetrics is at most 100: starting at 50, the
five comparison rules can add at most 5 times 10 before clamping, so 100 is
the theoretical maximum. -/
theorem computeMetrics_overallScore_le_100 (original rewritten : String) :
    (computeMetrics original rewritten).overallScore ≤ 100 :=
  max_le (by norm_num) (min_le_left 100 _)

/-- A concrete pair on which all five comparison rules award their bonus. -/
def c1Original : String :=
  "In order to proceed, the plan was made by the team with great delay today."

/-- The rewritten counterpart of the C1 counterexample pair. -/
def c1Rewritten : String :=
  "We made the plan fast. The team starts work now and moves quickly forward."

/-- C1 (counterexample): on this concrete pair every one of the five rules
fires positively, so the overallScore is 100, refuting the claimed ceiling
of 90. -/
theorem computeMetrics_overallScore_not_le_90 :
    (computeMetrics c1Original c1Rewritten).overallScore = 100 ∧
      ¬(computeMetrics c1Original c1Rewritten).overallScore ≤ 90 := by
  have h : (computeMetrics c1Original c1Rewritten).overallScore = 100 := by
    with_unfolding_all rfl
  refine ⟨h, ?_⟩
  rw [h]
  omega

/-- C9: on the given example text the filler counter registers the two
filler phrases plus the one transition word, to a total of exactly 3. -/
theorem countFillerPhrases_example :
    countFillerPhrases
      "In order to succeed, it is important to note that consistency is key. Furthermore, dedication matters." = 3 := by
  with_unfolding_all rfl

/-- The concrete two-sentence text on which the shared regex state changes
the passive count. -/
def c5Text : String :=
  "The very long report about the big project was written carefully by the team. It was done."

/-- C5 (code behaviour at the failing input): both sentences match the
passive pattern when tested independently, so the specified percentage is
100; but the code shares one global regex across the filter, its lastIndex
is 54 after the first sentence matches, the search in the 12-char second
sentence therefore starts past its end and fails, and the code returns 50. -/
theorem passiveVoicePercentage_lastIndex_bug :
    passiveVoicePercentage c5Text = 50 ∧ independentPassivePercentage c5Text = 100 := by
  constructor
  · with_unfolding_all rfl
  · with_unfolding_all rfl

/-- C7: fleschKincaidScore is the clamped, one-decimal-rounded Flesch
formula over word, sentence and syllable counts, is 0 when there are no
sentences or no words, and in particular is 0 on the empty string. -/
theorem fleschKincaidScore_formula (t : String) :
    (fleschKincaidScore t =
      if (splitSentences t).length = 0 ∨ countWords t = 0 then 0
      else (jsRound (max 0 (min 100
        (206.835 - 1.015 * ((countWords t : ℚ) / ((splitSentences t).length : ℚ))
          - 84.6 * ((totalSyllablesL t.toList : ℚ) / (countWords t : ℚ)))) * 10) : ℚ) / 10)
    ∧ fleschKincaidScore "" = 0 := by
  constructor
  · unfold fleschKincaidScore
    by_cases h1 : (splitSentences t).length = 0
    · simp [h1]
    · by_cases h2 : countWords t = 0
      · simp [h1, h2]
      · simp [h1, h2]
  · with_unfolding_all rfl

/-! ### Claim theorems: syllable counting -/

/-- Is the first char of the list a vowel (false for the empty list)? -/
def headVowel (l : List Char) : Bool := isVowelY (l.headD ' ')

/-- Lengths of the maximal runs of consecutive vowels in a char list. -/
def vowelRunLengths : List Char → List ℕ
  | [] => []
  | c :: rest =>
    if isVowelY c then
      if headVowel rest then
        match vowelRunLengths rest with
        | [] => [1]
        | k :: ks => (k + 1) :: ks
      else 1 :: vowelRunLengths rest
    else vowelRunLengths rest

/-- The syllable rule exactly as the claim states it, at the char-list
level: same preprocessing as the code, but each maximal run of consecutive
vowels counts as exactly one syllable. -/
def claimSyllablesL (wl : List Char) : ℕ :=
  let w1 := (wl.map Char.toLower).filter isLowerAlpha
  if w1.length ≤ 3 then 1
  else
    let m := (vowelRunLengths (stripLeadY (stripSuffixJS w1))).length
    if m = 0 then 1 else m

/-- The claim reading of the syllable rule, on a word. -/
def claimSyllables (w : String) : ℕ := claimSyllablesL w.toList

/-- The amended syllable rule at the char-list level: vowels are consumed in
greedy groups of at most two, so a maximal run of k consecutive vowels
contributes ceil(k / 2) = (k + 1) / 2 syllables. -/
def amendedSyllablesL (wl : List Char) : ℕ :=
  let w1 := (wl.map Char.toLower).filter isLowerAlpha
  if w1.length ≤ 3 then 1
  else
    let m := ((vowelRunLengths (stripLeadY (stripSuffixJS w1))).map
      (fun k => (k + 1) / 2)).sum
    if m = 0 then 1 else m

/-- The amended reading of the syllable rule, on a word. -/
def amendedSyllables (w : String) : ℕ := amendedSyllablesL w.toList

/-- The head-vowel test on a cons is the vowel test on the head. -/
theorem headVowel_cons (e : Char) (r : List Char) : headVowel (e :: r) = isVowelY e := by
  simp [headVowel]

/-- A vowel-headed list has a nonempty run decomposition. -/
theorem vowelRunLengths_cons_vowel (c : Char) (r : List Char) (h : isVowelY c = true) :
    ∃ k ks, vowelRunLengths (c :: r) = k :: ks := by
  simp only [vowelRunLengths, h, if_true]
  by_cases h2 : headVowel r = true
  · simp only [h2, if_true]
    cases vowelRunLengths r with
    | nil => exact ⟨1, [], rfl⟩
    | cons k ks => exact ⟨k + 1, ks, rfl⟩
  · simp only [h2, if_false]
    exact ⟨1, vowelRunLengths r, rfl⟩

/-- The greedy one-or-two vowel group count equals the sum of the rounded-up
half-lengths of the maximal vowel runs. -/
theorem countVowelGroups_eq_runs :
    ∀ n l, l.length ≤ n →
      countVowelGroups l = ((vowelRunLengths l).map (fun k => (k + 1) / 2)).sum := by
  intro n
  induction n with
  | zero =>
    intro l h
    have : l = [] := List.length_eq_zero.mp (Nat.le_zero.mp h)
    subst this
    rfl
  | succ n ih =>
    intro l hl
    match l with
    | [] => rfl
    | [c] =>
      by_cases hv : isVowelY c = true
      · simp [countVowelGroups, vowelRunLengths, hv]
      · simp [countVowelGroups, vowelRunLengths, hv]
    | c :: d :: rest =>
      simp only [List.length_cons] at hl
      by_cases hc : isVowelY c = true
      · by_cases hd : isVowelY d = true
        · -- both vowels: the group takes two chars; the head run shrinks by two
          have hrw : countVowelGroups (c :: d :: rest) = 1 + countVowelGroups rest := by
            simp [countVowelGroups, hc, hd]
          rw [hrw]
          have ihrest := ih rest (by omega)
          by_cases hr : headVowel rest = true
          · -- the run continues into rest
            obtain ⟨k, ks, hk⟩ : ∃ k ks, vowelRunLengths rest = k :: ks := by
              cases rest with
              | nil =>
                exfalso
                have h' : isVowelY ' ' = true := by simpa [headVowel] using hr
                exact absurd h' (by decide)
              | cons e r2 =>
                exact vowelRunLengths_cons_vowel e r2 (by simpa [headVowel_cons] using hr)
            have h2 : vowelRunLengths (c :: d :: rest) = (k + 1 + 1) :: ks := by
              simp [vowelRunLengths, headVowel_cons, hc, hd, hr, hk]
            rw [h2]
            rw [hk] at ihrest
            simp only [List.map_cons, List.sum_cons] at ihrest ⊢
            omega
          · -- the run is exactly the two chars c d
            have hr' : headVowel rest = false := by
              simpa using hr
            have h2 : vowelRunLengths (c :: d :: rest) = (1 + 1) :: vowelRunLengths rest := by
              simp [vowelRunLengths, headVowel_cons, hc, hd, hr']
            rw [h2]
            simp only [List.map_cons, List.sum_cons]
            omega
        · -- vowel then consonant: a one-char group
          have hd' : isVowelY d = false := by simpa using hd
          have hrw : countVowelGroups (c :: d :: rest) = 1 + countVowelGroups (d :: rest) := by
            simp [countVowelGroups, hc, hd']
          have h2 : vowelRunLengths (c :: d :: rest) = 1 :: vowelRunLengths (d :: rest) := by
            simp [vowelRunLengths, headVowel_cons, hc, hd']
          rw [hrw, h2]
          have ihd := ih (d :: rest) (by simp only [List.length_cons]; omega)
          simp only [List.map_cons, List.sum_cons]
          omega
      · -- consonant head: skipped by both sides
        have hc' : isVowelY c = false := by simpa using hc
        have hrw : countVowelGroups (c :: d :: rest) = countVowelGroups (d :: rest) := by
          simp [countVowelGroups, hc']
        have h2 : vowelRunLengths (c :: d :: rest) = vowelRunLengths (d :: rest) := by
          simp [vowelRunLengths, hc']
        rw [hrw, h2]
        exact ih (d :: rest) (by simp only [List.length_cons]; omega)

/-- C4 (amended): countSyllables lower-cases and strips non-letters, returns
1 for stripped words of length at most 3, strips the silent suffix and a
leading y, counts vowels in greedy groups of at most two (a maximal run of k
vowels counts (k + 1) / 2), and returns at least 1. -/
theorem countSyllables_amended (w : String) :
    countSyllables w = amendedSyllables w ∧ 1 ≤ countSyllables w := by
  have main : ∀ wl : List Char, countSyllablesL wl = amendedSyllablesL wl ∧ 1 ≤ countSyllablesL wl := by
    intro wl
    have hrun := countVowelGroups_eq_runs
      ((stripLeadY (stripSuffixJS ((wl.map Char.toLower).filter isLowerAlpha))).length)
      (stripLeadY (stripSuffixJS ((wl.map Char.toLower).filter isLowerAlpha)))
      (Nat.le_refl _)
    unfold countSyllablesL amendedSyllablesL
    by_cases h3 : ((wl.map Char.toLower).filter isLowerAlpha).length ≤ 3
    · simp [h3]
    · simp only [h3, if_false]
      rw [hrun]
      constructor
      · rfl
      · split
        · exact Nat.le_refl 1
        · omega
  exact main w.toList

/-- C4 (counterexample): on the word beautiful the code counts 4 syllable
groups (the run e a u is split as ea, u), while the claimed
one-per-maximal-run rule gives 3. -/
theorem countSyllables_beautiful_counterexample :
    countSyllables "beautiful" = 4 ∧ claimSyllables "beautiful" = 3 := by
  constructor
  · with_unfolding_all rfl
  · with_unfolding_all rfl

/-! ### Helper lemmas about the orchestrator -/

/-- A rewrite call whose service call throws propagates the error. -/
theorem callRewrite_failure (t : String) (opts : HumanizeOptions) (str : Bool)
    (o : Oracle) (st : StateA) (h : o st.idx = GenReply.failure) :
    callRewrite t opts str o st = Except.error () := by
  unfold callRewrite
  rw [h]

/-- A rewrite call whose service call answers returns the trimmed content
and advances the call state. -/
theorem callRewrite_reply (t : String) (opts : HumanizeOptions) (str : Bool)
    (o : Oracle) (st : StateA) (c : Option String) (h : o st.idx = GenReply.reply c) :
    callRewrite t opts str o st = Except.ok ((c.map String.trim).getD "",
      ⟨st.idx + 1,
       st.calls ++ [CallA.rewrite (rewriteConfig opts str) str (rewriteTemperature opts) 4096]⟩) := by
  unfold callRewrite
  rw [h]

/-- The verdict produced by checkMeaning, by cases on the call outcome. -/
theorem checkMeaning_fst (a b : String) (o : Oracle) (parse : String → Option ParsedFields)
    (st : StateA) :
    (checkMeaning a b o parse st).1 =
      (match o st.idx with
       | GenReply.failure => defaultVerdict
       | GenReply.reply content =>
         match parse (rawOf content) with
         | none => defaultVerdict
         | some parsed =>
           { preserved := parsed.meaningPreserved.getD true,
             issues := parsed.issuesFound.getD [],
             severity := parsed.severity.getD "none" }) := by
  cases h : o st.idx with
  | failure => simp [checkMeaning, h]
  | reply content =>
    cases hp : parse (rawOf content) with
    | none => simp [checkMeaning, h, hp]
    | some parsed => simp [checkMeaning, h, hp]

/-- checkMeaning always advances the call state in the same way, whatever
the outcome. -/
theorem checkMeaning_snd (a b : String) (o : Oracle) (parse : String → Option ParsedFields)
    (st : StateA) :
    (checkMeaning a b o parse st).2 = ⟨st.idx + 1, st.calls ++ [CallA.meaning 512]⟩ := by
  cases h : o st.idx with
  | failure => simp [checkMeaning, h]
  | reply content =>
    cases hp : parse (rawOf content) with
    | none => simp [checkMeaning, h, hp]
    | some parsed => simp [checkMeaning, h, hp]

/-- The two call records of the no-retry path of a humanize run. -/
def callsNoRetry (options : HumanizeOptions) : List CallA :=
  [CallA.rewrite (rewriteConfig options false) false (rewriteTemperature options) 4096,
   CallA.meaning 512]

/-- The four call records of the retry path of a humanize run. -/
def callsRetry (options : HumanizeOptions) : List CallA :=
  [CallA.rewrite (rewriteConfig options false) false (rewriteTemperature options) 4096,
   CallA.meaning 512,
   CallA.rewrite (rewriteConfig options true) true (rewriteTemperature options) 4096,
   CallA.meaning 512]

/-- The boolean retry condition of the source is the propositional pair. -/
theorem retryCond_iff (v : MeaningVerdict) :
    ((!v.preserved && v.severity == "major") = true) ↔
      (v.preserved = false ∧ v.severity = "major") := by
  simp [Bool.and_eq_true, Bool.not_eq_true']

/-- Full characterization of a successful humanize run: the first service
call answered; then either the first verdict did not trigger a retry and the
run made exactly the two no-retry calls, or it did, the third service call
answered too, and the run made exactly the four retry-path calls. -/
theorem humanize_ok_cases (text : String) (options : HumanizeOptions) (o : Oracle)
    (parse : String → Option ParsedFields) (res : HumanizeResult) (st : StateA)
    (hrun : humanize text options o parse = Except.ok (res, st)) :
    ∃ c0, o 0 = GenReply.reply c0 ∧
      (let r1 := (c0.map String.trim).getD ""
       let v1 := (checkMeaning text r1 o parse ⟨1, (callsRetry options).take 1⟩).1
       ((¬(v1.preserved = false ∧ v1.severity = "major")) ∧
         res = { original := text, rewritten := r1, metrics := computeMetrics text r1,
                 meaningCheck := v1, retried := false } ∧
         st = ⟨2, callsNoRetry options⟩) ∨
       ((v1.preserved = false ∧ v1.severity = "major") ∧
         ∃ c2, o 2 = GenReply.reply c2 ∧
           (let r2 := (c2.map String.trim).getD ""
            let v2 := (checkMeaning text r2 o parse ⟨3, (callsRetry options).take 3⟩).1
            res = { original := text, rewritten := r2, metrics := computeMetrics text r2,
                    meaningCheck := v2, retried := true } ∧
            st = ⟨4, callsRetry options⟩))) := by
  unfold humanize at hrun
  cases h0 : o 0 with
  | failure =>
    rw [callRewrite_failure text options false o ⟨0, []⟩ h0] at hrun
    exact absurd hrun (by simp)
  | reply c0 =>
    refine ⟨c0, rfl, ?_⟩
    rw [callRewrite_reply text options false o ⟨0, []⟩ c0 h0] at hrun
    simp only at hrun
    set r1 := (c0.map String.trim).getD "" with hr1
    have hst1 : (⟨0 + 1, [] ++ [CallA.rewrite (rewriteConfig options false) false
        (rewriteTemperature options) 4096]⟩ : StateA) = ⟨1, (callsRetry options).take 1⟩ := by
      simp [callsRetry]
    rw [hst1] at hrun
    set v1 := (checkMeaning text r1 o parse ⟨1, (callsRetry options).take 1⟩).1 with hv1
    by_cases hcond : (!v1.preserved && v1.severity == "major") = true
    · -- retry branch
      rw [if_pos hcond] at hrun
      rw [checkMeaning_snd] at hrun
      have hst2 : (⟨(⟨1, (callsRetry options).take 1⟩ : StateA).idx + 1,
          (⟨1, (callsRetry options).take 1⟩ : StateA).calls ++ [CallA.meaning 512]⟩ : StateA) =
          ⟨2, callsNoRetry options⟩ := by
        simp [callsRetry, callsNoRetry]
      rw [hst2] at hrun
      cases h2 : o 2 with
      | failure =>
        rw [callRewrite_failure text options true o ⟨2, callsNoRetry options⟩ h2] at hrun
        exact absurd hrun (by simp)
      | reply c2 =>
        rw [callRewrite_reply text options true o ⟨2, callsNoRetry options⟩ c2 h2] at hrun
        simp only at hrun
        have hst3 : (⟨(⟨2, callsNoRetry options⟩ : StateA).idx + 1,
            (⟨2, callsNoRetry options⟩ : StateA).calls ++
              [CallA.rewrite (rewriteConfig options true) true (rewriteTemperature options) 4096]⟩ : StateA) =
            ⟨3, (callsRetry options).take 3⟩ := by
          simp [callsRetry, callsNoRetry]
        rw [hst3] at hrun
        rw [checkMeaning_snd] at hrun
        have hst4 : (⟨(⟨3, (callsRetry options).take 3⟩ : StateA).idx + 1,
            (⟨3, (callsRetry options).take 3⟩ : StateA).calls ++ [CallA.meaning 512]⟩ : StateA) =
            ⟨4, callsRetry options⟩ := by
          simp [callsRetry]
        rw [hst4] at hrun
        right
        refine ⟨(retryCond_iff v1).mp hcond, c2, rfl, ?_⟩
        simp only [Except.ok.injEq, Prod.mk.injEq] at hrun
        exact ⟨hrun.1.symm, hrun.2.symm⟩
    · -- no-retry branch
      rw [if_neg hcond] at hrun
      rw [checkMeaning_snd] at hrun
      have hst2 : (⟨(⟨1, (callsRetry options).take 1⟩ : StateA).idx + 1,
          (⟨1, (callsRetry options).take 1⟩ : StateA).calls ++ [CallA.meaning 512]⟩ : StateA) =
          ⟨2, callsNoRetry options⟩ := by
        simp [callsRetry, callsNoRetry]
      rw [hst2] at hrun
      left
      refine ⟨fun hpair => hcond ((retryCond_iff v1).mpr hpair), ?_, ?_⟩
      · simp only [Except.ok.injEq, Prod.mk.injEq] at hrun
        exact hrun.1.symm
      · simp only [Except.ok.injEq, Prod.mk.injEq] at hrun
        exact hrun.2.symm

/-! ### Claim theorems: the orchestrator -/

/-- C2: in a completed humanize run whose first rewrite returned r1 and
whose first meaning check returned the verdict v1, the retry happened if and
only if v1 has preserved false and severity major; when it did, exactly two
rewrite calls and two meaning-check calls were made and retried is true;
otherwise exactly one of each was made and retried is false.  In particular
a retry never happens more than once. -/
theorem humanize_retry_policy (text : String) (options : HumanizeOptions) (o : Oracle)
    (parse : String → Option ParsedFields) (r1 : String) (s1 : StateA)
    (v1 : MeaningVerdict) (s2 : StateA) (res : HumanizeResult) (st : StateA)
    (h1 : callRewrite text options false o ⟨0, []⟩ = Except.ok (r1, s1))
    (h2 : checkMeaning text r1 o parse s1 = (v1, s2))
    (hrun : humanize text options o parse = Except.ok (res, st)) :
    (res.retried = true ↔ (v1.preserved = false ∧ v1.severity = "major")) ∧
    (res.retried = true → rewriteCallCount st.calls = 2 ∧ meaningCallCount st.calls = 2) ∧
    (res.retried = false → rewriteCallCount st.calls = 1 ∧ meaningCallCount st.calls = 1) := by
  obtain ⟨c0, h0, hmain⟩ := humanize_ok_cases text options o parse res st hrun
  have h1' := callRewrite_reply text options false o ⟨0, []⟩ c0 h0
  rw [h1] at h1'
  simp only [Except.ok.injEq, Prod.mk.injEq] at h1'
  obtain ⟨hr1, hs1⟩ := h1'
  have hv1 : v1 = (checkMeaning text ((c0.map String.trim).getD "") o parse
      ⟨1, (callsRetry options).take 1⟩).1 := by
    have hs1' : s1 = ⟨1, (callsRetry options).take 1⟩ := by
      rw [hs1]
      simp [callsRetry]
    rw [← hr1, ← hs1', h2]
  simp only at hmain
  rcases hmain with ⟨hnc, hres, hst⟩ | ⟨hc, c2, h2o, hres, hst⟩
  · rw [← hv1] at hnc
    refine ⟨?_, ?_, ?_⟩
    · rw [hres]
      exact iff_of_false (by simp) hnc
    · intro habs
      rw [hres] at habs
      simp at habs
    · intro _
      rw [hst]
      constructor
      · rfl
      · rfl
  · rw [← hv1] at hc
    refine ⟨?_, ?_, ?_⟩
    · rw [hres]
      simpa using hc
    · intro _
      rw [hst]
      constructor
      · rfl
      · rfl
    · intro habs
      rw [hres] at habs
      simp at habs

/-- The caller options of the C2 witness scenario. -/
def c2opts : HumanizeOptions := ⟨Tone.professional, Strength.strong, false⟩

/-- The oracle of the C2 witness scenario: first rewrite answers, the first
meaning check reports major drift, the second rewrite answers, the second
check passes. -/
def c2oracle : Oracle := fun n =>
  if n = 0 then GenReply.reply (some "First draft.")
  else if n = 1 then GenReply.reply (some "verdict-major")
  else if n = 2 then GenReply.reply (some "Second draft.")
  else GenReply.reply (some "verdict-ok")

/-- The parse function of the C2 witness scenario. -/
def c2parse : String → Option ParsedFields := fun s =>
  if s = "verdict-major" then some ⟨some false, some [], some "major"⟩
  else if s = "verdict-ok" then some ⟨some true, some [], some "none"⟩
  else none

/-- The result value of the C2 witness run. -/
def c2res : HumanizeResult :=
  { original := "Write.", rewritten := "Second draft.",
    metrics := computeMetrics "Write." "Second draft.",
    meaningCheck := ⟨true, [], "none"⟩, retried := true }

/-- The final call state of the C2 witness run. -/
def c2st : StateA := ⟨4, callsRetry c2opts⟩

/-- Witness for C2: a concrete run in which the first verdict is major and
unpreserved, so the retry fires, two rewrite and two meaning-check calls are
recorded, and retried is true. -/
theorem humanize_retry_policy_witness :
    (c2res.retried = true ↔
      ((⟨false, [], "major"⟩ : MeaningVerdict).preserved = false ∧
        (⟨false, [], "major"⟩ : MeaningVerdict).severity = "major")) ∧
    (c2res.retried = true → rewriteCallCount c2st.calls = 2 ∧ meaningCallCount c2st.calls = 2) ∧
    (c2res.retried = false → rewriteCallCount c2st.calls = 1 ∧ meaningCallCount c2st.calls = 1) :=
  humanize_retry_policy "Write." c2opts c2oracle c2parse "First draft."
    ⟨1, (callsRetry c2opts).take 1⟩ ⟨false, [], "major"⟩ ⟨2, callsNoRetry c2opts⟩ c2res c2st
    (by with_unfolding_all rfl) (by with_unfolding_all rfl) (by with_unfolding_all rfl)

/-- C3: if the first rewrite answers and the meaning-check call either
throws or returns content that does not parse as JSON, then checkMeaning
returns exactly the default verdict (preserved true, no issues, severity
none), and humanize still completes, returning a full HumanizeResult built
from that default verdict instead of propagating the failure. -/
theorem checkMeaning_fail_open (text : String) (options : HumanizeOptions) (o : Oracle)
    (parse : String → Option ParsedFields) (c0 : Option String)
    (hc0 : o 0 = GenReply.reply c0)
    (hfail : o 1 = GenReply.failure ∨
      ∃ c, o 1 = GenReply.reply c ∧ parse (rawOf c) = none) :
    (checkMeaning text ((c0.map String.trim).getD "") o parse
        ⟨1, (callsRetry options).take 1⟩).1 = defaultVerdict ∧
    humanize text options o parse = Except.ok
      ({ original := text, rewritten := (c0.map String.trim).getD "",
         metrics := computeMetrics text ((c0.map String.trim).getD ""),
         meaningCheck := defaultVerdict, retried := false },
       ⟨2, callsNoRetry options⟩) := by
  have hfst : (checkMeaning text ((c0.map String.trim).getD "") o parse
      ⟨1, (callsRetry options).take 1⟩).1 = defaultVerdict := by
    rw [checkMeaning_fst]
    rcases hfail with hthrow | ⟨c, hc, hp⟩
    · have : o (⟨1, (callsRetry options).take 1⟩ : StateA).idx = GenReply.failure := hthrow
      rw [this]
    · have : o (⟨1, (callsRetry options).take 1⟩ : StateA).idx = GenReply.reply c := hc
      rw [this]
      simp [hp]
  refine ⟨hfst, ?_⟩
  unfold humanize
  rw [callRewrite_reply text options false o ⟨0, []⟩ c0 hc0]
  simp only
  have hst1 : (⟨0 + 1, [] ++ [CallA.rewrite (rewriteConfig options false) false
      (rewriteTemperature options) 4096]⟩ : StateA) = ⟨1, (callsRetry options).take 1⟩ := by
    simp [callsRetry]
  rw [hst1, hfst]
  have hcond : (!defaultVerdict.preserved && defaultVerdict.severity == "major") = false := by
    rfl
  rw [hcond]
  simp only [Bool.false_eq_true, if_false]
  rw [checkMeaning_snd]
  have hst2 : (⟨(⟨1, (callsRetry options).take 1⟩ : StateA).idx + 1,
      (⟨1, (callsRetry options).take 1⟩ : StateA).calls ++ [CallA.meaning 512]⟩ : StateA) =
      ⟨2, callsNoRetry options⟩ := by
    simp [callsRetry, callsNoRetry]
  rw [hst2]

/-- The caller options of the C3 witness scenario. -/
def c3opts : HumanizeOptions := ⟨Tone.confident, Strength.medium, true⟩

/-- The oracle of the C3 witness scenario: the rewrite answers, the meaning
check throws. -/
def c3oracle : Oracle := fun n =>
  if n = 0 then GenReply.reply (some " A plan. ") else GenReply.failure

/-- The parse function of the C3 witness scenario (never succeeds). -/
def c3parse : String → Option ParsedFields := fun _ => none

/-- Witness for C3: on a concrete run whose meaning-check call throws, the
verdict is the fail-open default and humanize completes with it. -/
theorem checkMeaning_fail_open_witness :
    (checkMeaning "Go now." (((some " A plan. ").map String.trim).getD "") c3oracle c3parse
        ⟨1, (callsRetry c3opts).take 1⟩).1 = defaultVerdict ∧
    humanize "Go now." c3opts c3oracle c3parse = Except.ok
      ({ original := "Go now.", rewritten := ((some " A plan. ").map String.trim).getD "",
         metrics := computeMetrics "Go now." (((some " A plan. ").map String.trim).getD ""),
         meaningCheck := defaultVerdict, retried := false },
       ⟨2, callsNoRetry c3opts⟩) :=
  checkMeaning_fail_open "Go now." c3opts c3oracle c3parse (some " A plan. ")
    (by with_unfolding_all rfl) (Or.inl (by with_unfolding_all rfl))

/-- C8: every rewrite call recorded in a completed humanize run passed the
prompt builder a config whose preserveKeyPoints is the caller option
disjoined with the stricter flag of that call: when the retry path invokes
the rewrite with stricter true, the config has preserveKeyPoints true
regardless of the caller option; with stricter false it equals the caller
option. -/
theorem humanize_stricter_forces_preserveKeyPoints (text : String)
    (options : HumanizeOptions) (o : Oracle) (parse : String → Option ParsedFields)
    (res : HumanizeResult) (st : StateA) (cfg : HumanizeOptions) (strict : Bool)
    (temp : ℚ) (mt : ℕ)
    (hrun : humanize text options o parse = Except.ok (res, st))
    (hmem : CallA.rewrite cfg strict temp mt ∈ st.calls) :
    cfg.preserveKeyPoints = (options.preserveKeyPoints || strict) ∧
    (strict = true → cfg.preserveKeyPoints = true) ∧
    (strict = false → cfg.preserveKeyPoints = options.preserveKeyPoints) := by
  obtain ⟨c0, h0, hmain⟩ := humanize_ok_cases text options o parse res st hrun
  simp only at hmain
  have hkey : cfg = rewriteConfig options strict := by
    rcases hmain with ⟨_, _, hst⟩ | ⟨_, c2, _, _, hst⟩
    · rw [hst] at hmem
      simp only [callsNoRetry, List.mem_cons, List.mem_singleton] at hmem
      rcases hmem with h | h | h
      · obtain ⟨hcfg, hstrict, _, _⟩ := CallA.rewrite.inj h
        rw [hcfg, hstrict]
      · exact absurd h (by simp)
      · exact absurd h (by simp)
    · rw [hst] at hmem
      simp only [callsRetry, List.mem_cons, List.mem_singleton] at hmem
      rcases hmem with h | h | h | h | h
      · obtain ⟨hcfg, hstrict, _, _⟩ := CallA.rewrite.inj h
        rw [hcfg, hstrict]
      · exact absurd h (by simp)
      · obtain ⟨hcfg, hstrict, _, _⟩ := CallA.rewrite.inj h
        rw [hcfg, hstrict]
      · exact absurd h (by simp)
      · exact absurd h (by simp)
  have hpk : cfg.preserveKeyPoints = (options.preserveKeyPoints || strict) := by
    rw [hkey]
    rfl
  refine ⟨hpk, ?_, ?_⟩
  · intro hs
    rw [hpk, hs, Bool.or_true]
  · intro hs
    rw [hpk, hs, Bool.or_false]

/-- The caller options of the C8 witness scenario: the caller asks for
preserveKeyPoints false, yet the retry rewrite gets it forced on. -/
def c8opts : HumanizeOptions := ⟨Tone.friendly, Strength.light, false⟩

/-- The oracle of the C8 witness scenario (same shape as the retry run). -/
def c8oracle : Oracle := fun n =>
  if n = 0 then GenReply.reply (some "Take one.")
  else if n = 1 then GenReply.reply (some "bad-verdict")
  else if n = 2 then GenReply.reply (some "Take two.")
  else GenReply.reply none

/-- The parse function of the C8 witness scenario. -/
def c8parse : String → Option ParsedFields := fun s =>
  if s = "bad-verdict" then some ⟨some false, some ["lost a fact"], some "major"⟩
  else none

/-- The result value of the C8 witness run. -/
def c8res : HumanizeResult :=
  { original := "Ship it.", rewritten := "Take two.",
    metrics := computeMetrics "Ship it." "Take two.",
    meaningCheck := defaultVerdict, retried := true }

/-- Witness for C8: in the concrete retry run, the stricter rewrite call was
recorded with a config whose preserveKeyPoints is true although the caller
passed false. -/
theorem humanize_stricter_witness :
    (rewriteConfig c8opts true).preserveKeyPoints = (c8opts.preserveKeyPoints || true) ∧
    (true = true → (rewriteConfig c8opts true).preserveKeyPoints = true) ∧
    (true = false → (rewriteConfig c8opts true).preserveKeyPoints = c8opts.preserveKeyPoints) :=
  humanize_stricter_forces_preserveKeyPoints "Ship it." c8opts c8oracle c8parse
    c8res ⟨4, callsRetry c8opts⟩ (rewriteConfig c8opts true) true
    (rewriteTemperature c8opts) 4096 (by with_unfolding_all rfl)
    (by
      unfold callsRetry
      exact List.mem_cons_of_mem _ (List.mem_cons_of_mem _ (List.mem_cons_self _ _)))

/-- C10: the two orchestrator modules are observationally equivalent: for
the same text, the same options and the same sequence of service-call
outcomes, both humanize functions produce the same value (the same
HumanizeResult, or both the propagated error); console logging and the
outbound-request parameter differences do not affect the returned value. -/
theorem humanize_variants_agree (text : String) (options : HumanizeOptions) (o : Oracle)
    (parse : String → Option ParsedFields) :
    resultOfA (humanize text options o parse) =
      resultOfB (humanizeLogged text options o parse) := by
  cases h0 : o 0 with
  | failure =>
    simp [humanize, humanizeLogged, callRewrite, callRewriteLogged,
      resultOfA, resultOfB, h0]
  | reply c0 =>
    cases h1 : o 1 with
    | failure =>
      simp [humanize, humanizeLogged, callRewrite, callRewriteLogged,
        checkMeaning, checkMeaningLogged, resultOfA, resultOfB,
        defaultVerdict, h0, h1]
    | reply c1 =>
      cases hp1 : parse (rawOf c1) with
      | none =>
        simp [humanize, humanizeLogged, callRewrite, callRewriteLogged,
          checkMeaning, checkMeaningLogged, resultOfA, resultOfB,
          defaultVerdict, h0, h1, hp1]
      | some f1 =>
        by_cases hcond :
            (!(f1.meaningPreserved.getD true) && ((f1.severity.getD "none") == "major")) = true
        · cases h2 : o 2 with
          | failure =>
            simp [humanize, humanizeLogged, callRewrite, callRewriteLogged,
              checkMeaning, checkMeaningLogged, resultOfA, resultOfB,
              h0, h1, hp1, h2, hcond]
          | reply c2 =>
            cases h3 : o 3 with
            | failure =>
              simp [humanize, humanizeLogged, callRewrite, callRewriteLogged,
                checkMeaning, checkMeaningLogged, resultOfA, resultOfB,
                defaultVerdict, h0, h1, hp1, h2, h3, hcond]
            | reply c3 =>
              cases hp3 : parse (rawOf c3) with
              | none =>
                simp [humanize, humanizeLogged, callRewrite, callRewriteLogged,
                  checkMeaning, checkMeaningLogged, resultOfA, resultOfB,
                  defaultVerdict, h0, h1, hp1, h2, h3, hp3, hcond]
              | some f3 =>
                simp [humanize, humanizeLogged, callRewrite, callRewriteLogged,
                  checkMeaning, checkMeaningLogged, resultOfA, resultOfB,
                  h0, h1, hp1, h2, h3, hp3, hcond]
        · simp [humanize, humanizeLogged, callRewrite, callRewriteLogged,
            checkMeaning, checkMeaningLogged, resultOfA, resultOfB,
            h0, h1, hp1, hcond]

end GhostHuman
